import Mathlib

/-!
Verification of the DeckPilot gamepad polling core
(`src/client/src-tauri/src/gamepad.rs`, `main.rs`, `haptic.rs`).

The polling thread's state (controller list, parallel haptic-handle list,
two trigger debounce flags) is embedded as a structure, the SDL events it
consumes as an inductive type, and one iteration of its event dispatch as
a function from state and event to new state plus emitted events.  The
haptic drain and the `trigger_haptic` command handler are embedded as
functions as well.  `f32` values are embedded as exact rationals and the
`as u16` cast as floor-then-saturate; `i16` axis values and `u32`/`u8`
integers are embedded as `Int`/`Nat` (no arithmetic in the source can
overflow these).
-/

namespace DeckPilot

/-- SDL2 `GameController` button identifiers (`sdl2::controller::Button`).
The first fifteen are the ones named in `button_to_w3c`; the remaining six
are the other variants of the SDL2 enum, which fall into the `_ => 255`
arm. -/
inductive Button where
  | A
  | B
  | X
  | Y
  | Back
  | Guide
  | Start
  | LeftStick
  | RightStick
  | LeftShoulder
  | RightShoulder
  | DPadUp
  | DPadDown
  | DPadLeft
  | DPadRight
  | Misc1
  | Paddle1
  | Paddle2
  | Paddle3
  | Paddle4
  | Touchpad
deriving DecidableEq, Repr

/-- `button_to_w3c` from `gamepad.rs`: maps SDL2 buttons to W3C Gamepad API
indices, returning the sentinel 255 for anything outside the fixed table.
(The source returns `u8`; every value fits in `Nat` unchanged.) -/
def button_to_w3c : Button → Nat
  | .A => 0
  | .B => 1
  | .X => 2
  | .Y => 3
  | .LeftShoulder => 4
  | .RightShoulder => 5
  | .Back => 8
  | .Start => 9
  | .LeftStick => 10
  | .RightStick => 11
  | .DPadUp => 12
  | .DPadDown => 13
  | .DPadLeft => 14
  | .DPadRight => 15
  | .Guide => 16
  | _ => 255

/-- The fifteen buttons that `button_to_w3c` names explicitly. -/
def knownButtons : List Button :=
  [.A, .B, .X, .Y, .LeftShoulder, .RightShoulder, .Back, .Start,
   .LeftStick, .RightStick, .DPadUp, .DPadDown, .DPadLeft, .DPadRight, .Guide]

/-- `const TRIGGER_THRESHOLD: i16 = 8000` from `gamepad.rs`. -/
def TRIGGER_THRESHOLD : Int := 8000

/-- One axis-motion sample of the trigger debouncer from the poll loop:
`if value > TRIGGER_THRESHOLD && !pressed { pressed = true; emit }
 else if value < TRIGGER_THRESHOLD / 2 { pressed = false }`.
Returns the new `pressed` flag and whether a button event was emitted. -/
def triggerStep (pressed : Bool) (value : Int) : Bool × Bool :=
  if TRIGGER_THRESHOLD < value ∧ pressed = false then (true, true)
  else if value < TRIGGER_THRESHOLD / 2 then (false, false)
  else (pressed, false)

/-- Feeds a list of axis samples through `triggerStep`, returning the final
`pressed` flag and the number of button events emitted. -/
def runTrigger (pressed : Bool) : List Int → Bool × Nat
  | [] => (pressed, 0)
  | v :: vs =>
    let s := triggerStep pressed v
    let r := runTrigger s.1 vs
    (r.1, (if s.2 then 1 else 0) + r.2)

/-- `true` iff consecutive samples never decrease (a monotonically
increasing sample sequence). -/
def nondecb : List Int → Bool
  | [] => true
  | [_] => true
  | a :: b :: t => decide (a ≤ b) && nondecb (b :: t)

/-- `true` iff consecutive samples never increase (a monotonically
decreasing sample sequence). -/
def nonincb : List Int → Bool
  | [] => true
  | [_] => true
  | a :: b :: t => decide (b ≤ a) && nonincb (b :: t)

/-- An open `sdl2::controller::GameController`: its stable instance
identifier (`instance_id()`, a `u32`) and display name (`name()`). -/
structure Controller where
  instance_id : Nat
  name : String
deriving DecidableEq, Repr

/-- An opened `sdl2::haptic::Haptic` handle; its internals are opaque to
the poll loop, which only checks presence. -/
abbrev HapticHandle := Unit

/-- The poll thread's mutable state from `spawn_gamepad_thread`:
`controllers`, the parallel `haptic_devices` list, and the two trigger
debounce flags `lt_pressed` / `rt_pressed`. -/
structure GamepadState where
  controllers : List Controller
  haptic_devices : List (Option HapticHandle)
  lt_pressed : Bool
  rt_pressed : Bool
deriving DecidableEq, Repr

/-- The state at thread start: empty lists, triggers not pressed. -/
def initState : GamepadState :=
  { controllers := [], haptic_devices := [], lt_pressed := false, rt_pressed := false }

/-- An event emitted by the poll loop to the application: either a
`gamepad_status` payload `{connected, name}` or a `gamepad_button`
payload `{button}`. -/
inductive OutEvent where
  | gamepad_status (connected : Bool) (name : String)
  | gamepad_button (button : Nat)
deriving DecidableEq, Repr

/-- The controller axes the poll loop distinguishes: the two trigger axes
and everything else (the `_ => {}` arm). -/
inductive Axis where
  | TriggerLeft
  | TriggerRight
  | OtherAxis
deriving DecidableEq, Repr

/-- The SDL events the poll loop matches on.  A `ControllerDeviceAdded`
event carries the result of `game_controller.open(which)` together with
the best-effort haptic open (`none` when `open` failed; the inner
`Option` is the `Haptic::from_joystick(..).ok()` result). -/
inductive SdlEvent where
  | controllerDeviceAdded (result : Option (Controller × Option HapticHandle))
  | controllerDeviceRemoved (which : Nat)
  | controllerButtonDown (b : Button)
  | controllerAxisMotion (axis : Axis) (value : Int)
  | otherEvent
deriving DecidableEq, Repr

/-- `controllers.iter().position(|c| c.instance_id() == which)`. -/
def findInstanceIdx (which : Nat) : List Controller → Option Nat
  | [] => none
  | c :: cs =>
    if c.instance_id = which then some 0
    else (findInstanceIdx which cs).map (fun i => i + 1)

/-- One arm of the poll loop's `match event`: dispatch a single SDL event
against the current state, producing the new state and the list of events
emitted to the application (in emission order). -/
def handleEvent (s : GamepadState) : SdlEvent → GamepadState × List OutEvent
  | .controllerDeviceAdded none => (s, [])
  | .controllerDeviceAdded (some (c, h)) =>
    ({ s with controllers := s.controllers ++ [c],
              haptic_devices := s.haptic_devices ++ [h] },
     [.gamepad_status true c.name])
  | .controllerDeviceRemoved which =>
    match findInstanceIdx which s.controllers with
    | none => (s, [])
    | some idx =>
      match s.controllers[idx]? with
      | none => (s, [])
      | some removed =>
        ({ controllers := s.controllers.eraseIdx idx,
           haptic_devices := s.haptic_devices.eraseIdx idx,
           lt_pressed := false, rt_pressed := false },
         [.gamepad_status false removed.name])
  | .controllerButtonDown b =>
    let idx := button_to_w3c b
    if idx ≠ 255 then (s, [.gamepad_button idx]) else (s, [])
  | .controllerAxisMotion .TriggerLeft v =>
    let r := triggerStep s.lt_pressed v
    ({ s with lt_pressed := r.1 }, if r.2 then [.gamepad_button 6] else [])
  | .controllerAxisMotion .TriggerRight v =>
    let r := triggerStep s.rt_pressed v
    ({ s with rt_pressed := r.1 }, if r.2 then [.gamepad_button 7] else [])
  | .controllerAxisMotion .OtherAxis _ => (s, [])
  | .otherEvent => (s, [])

/-- Runs the poll loop's event dispatch over a list of SDL events,
accumulating the emitted events in order. -/
def runEvents (s : GamepadState) : List SdlEvent → GamepadState × List OutEvent
  | [] => (s, [])
  | e :: es =>
    let r := handleEvent s e
    let rest := runEvents r.1 es
    (rest.1, r.2 ++ rest.2)

/-- `HapticRequest` from `haptic.rs`: `strength: f32` (embedded as an
exact rational) and `duration_ms: u32`. -/
structure HapticRequest where
  strength : ℚ
  duration_ms : Nat
deriving DecidableEq, Repr

/-- One `rumble_play(low, high, duration_ms)` invocation on a device. -/
structure RumbleCall where
  low : Nat
  high : Nat
  duration_ms : Nat
deriving DecidableEq, Repr

/-- Rust `as u16` applied to a float value (embedded as a rational):
truncate, saturating at 0 and 65535.  (For non-negative values truncation
is the floor; negative values saturate to 0 under either rounding.) -/
def satU16 (x : ℚ) : Nat := min 65535 ⌊x⌋.toNat

/-- The `rumble_play` parameters the dispatcher computes for a request:
`lo = (strength * 0.3 * 65535.0) as u16`, `hi = (strength * 65535.0) as u16`,
duration forwarded unchanged. -/
def rumbleOf (req : HapticRequest) : RumbleCall :=
  { low := satU16 (req.strength * (3 / 10) * 65535),
    high := satU16 (req.strength * 65535),
    duration_ms := req.duration_ms }

/-- The inner loop of the haptic drain: for one request, iterate over
`haptic_devices` and issue `rumble_play` on every entry holding a handle. -/
def drainOne (hd : List (Option HapticHandle)) (req : HapticRequest) : List RumbleCall :=
  hd.filterMap (fun h => h.map (fun _ => rumbleOf req))

/-- `while let Ok(req) = haptic_rx.try_recv()`: drain the whole pending
request queue, applying each request to every haptic-capable device. -/
def drainHaptics (hd : List (Option HapticHandle)) : List HapticRequest → List RumbleCall
  | [] => []
  | r :: rs => drainOne hd r ++ drainHaptics hd rs

/-- Rust `f32::clamp(lo, hi)` on rationals (for `lo ≤ hi`): values below
`lo` go to `lo`, values above `hi` go to `hi`. -/
def clampQ (lo hi x : ℚ) : ℚ := max lo (min hi x)

/-- The `trigger_haptic` Tauri command from `main.rs`: builds the
`HapticRequest` that is sent into the queue, clamping `strength` to
`[0, 1]` and forwarding `duration_ms` unchanged. -/
def trigger_haptic (strength : ℚ) (duration_ms : Nat) : HapticRequest :=
  { strength := clampQ 0 1 strength, duration_ms := duration_ms }

/-! ## Trigger debouncer lemmas -/

theorem triggerStep_high (v : Int) (hv : TRIGGER_THRESHOLD < v) :
    triggerStep false v = (true, true) := by
  simp [triggerStep, hv]

theorem triggerStep_low (p : Bool) (v : Int) (hv : v < TRIGGER_THRESHOLD / 2) :
    triggerStep p v = (false, false) := by
  have hnot : ¬ (TRIGGER_THRESHOLD < v ∧ p = false) := by
    rintro ⟨h1, -⟩
    simp only [TRIGGER_THRESHOLD] at h1 hv
    omega
  simp [triggerStep, hnot, hv]

theorem triggerStep_false_le (v : Int) (hv : ¬ TRIGGER_THRESHOLD < v) :
    triggerStep false v = (false, false) := by
  simp only [triggerStep]
  split
  · omega
  · split <;> rfl

theorem triggerStep_true_mid (v : Int) (hv : ¬ v < TRIGGER_THRESHOLD / 2) :
    triggerStep true v = (true, false) := by
  simp [triggerStep, hv]

theorem runTrigger_append (xs ys : List Int) (p : Bool) :
    runTrigger p (xs ++ ys) =
      ((runTrigger (runTrigger p xs).1 ys).1,
        (runTrigger p xs).2 + (runTrigger (runTrigger p xs).1 ys).2) := by
  induction xs generalizing p with
  | nil => simp [runTrigger]
  | cons v vs ih =>
    simp only [List.cons_append, runTrigger]
    have hra : vs.append ys = vs ++ ys := rfl
    rw [hra, ih]
    simp [Nat.add_assoc]

theorem runTrigger_true_high (xs : List Int) (hx : ∀ x ∈ xs, TRIGGER_THRESHOLD / 2 ≤ x) :
    runTrigger true xs = (true, 0) := by
  induction xs with
  | nil => rfl
  | cons v vs ih =>
    have hstep : triggerStep true v = (true, false) :=
      triggerStep_true_mid v (by have := hx v (by simp); omega)
    simp only [runTrigger, hstep]
    rw [ih (fun x hxm => hx x (by simp [hxm]))]
    simp

theorem runTrigger_false_low (xs : List Int) (hx : ∀ x ∈ xs, ¬ TRIGGER_THRESHOLD < x) :
    runTrigger false xs = (false, 0) := by
  induction xs with
  | nil => rfl
  | cons v vs ih =>
    have hstep : triggerStep false v = (false, false) :=
      triggerStep_false_le v (hx v (by simp))
    simp only [runTrigger, hstep]
    rw [ih (fun x hxm => hx x (by simp [hxm]))]
    simp

theorem nondecb_tail (a : Int) (l : List Int) (h : nondecb (a :: l) = true) :
    nondecb l = true := by
  cases l with
  | nil => rfl
  | cons b t =>
    simp only [nondecb, Bool.and_eq_true] at h
    exact h.2

theorem nondecb_head_le (a : Int) (l : List Int) (h : nondecb (a :: l) = true) :
    ∀ x ∈ l, a ≤ x := by
  induction l generalizing a with
  | nil => intro x hx; cases hx
  | cons b t ih =>
    simp only [nondecb, Bool.and_eq_true, decide_eq_true_eq] at h
    intro x hx
    rcases List.mem_cons.mp hx with rfl | hx
    · exact h.1
    · exact le_trans h.1 (ih b (by simpa [nondecb] using h.2) x hx)

theorem nonincb_tail (a : Int) (l : List Int) (h : nonincb (a :: l) = true) :
    nonincb l = true := by
  cases l with
  | nil => rfl
  | cons b t =>
    simp only [nonincb, Bool.and_eq_true] at h
    exact h.2

theorem nonincb_head_ge (a : Int) (l : List Int) (h : nonincb (a :: l) = true) :
    ∀ x ∈ l, x ≤ a := by
  induction l generalizing a with
  | nil => intro x hx; cases hx
  | cons b t ih =>
    simp only [nonincb, Bool.and_eq_true, decide_eq_true_eq] at h
    intro x hx
    rcases List.mem_cons.mp hx with rfl | hx
    · exact h.1
    · exact le_trans (ih b (by simpa [nonincb] using h.2) x hx) h.1

/-- Monotonically increasing phase: starting not-pressed, a nondecreasing
sample list containing a value above the threshold ends pressed with
exactly one emission. -/
theorem runTrigger_up_phase (xs : List Int) (hmono : nondecb xs = true)
    (hcross : ∃ x ∈ xs, TRIGGER_THRESHOLD < x) :
    runTrigger false xs = (true, 1) := by
  induction xs with
  | nil => rcases hcross with ⟨x, hx, -⟩; cases hx
  | cons v vs ih =>
    by_cases hv : TRIGGER_THRESHOLD < v
    · have hstep := triggerStep_high v hv
      have hrest : runTrigger true vs = (true, 0) := by
        apply runTrigger_true_high
        intro x hx
        have := nondecb_head_le v vs hmono x hx
        simp only [TRIGGER_THRESHOLD] at *
        omega
      simp [runTrigger, hstep, hrest]
    · have hstep := triggerStep_false_le v hv
      have hcross' : ∃ x ∈ vs, TRIGGER_THRESHOLD < x := by
        rcases hcross with ⟨x, hx, hgt⟩
        rcases List.mem_cons.mp hx with rfl | hx
        · exact absurd hgt hv
        · exact ⟨x, hx, hgt⟩
      simp [runTrigger, hstep, ih (nondecb_tail v vs hmono) hcross']

/-- Monotonically decreasing phase: starting pressed, a nonincreasing
sample list whose last sample is below half the threshold ends
not-pressed with no emission. -/
theorem runTrigger_down_phase (ys : List Int) (hmono : nonincb ys = true)
    (hfall : ∃ u, ys.getLast? = some u ∧ u < TRIGGER_THRESHOLD / 2) :
    runTrigger true ys = (false, 0) := by
  induction ys with
  | nil => rcases hfall with ⟨u, hu, -⟩; cases hu
  | cons v vs ih =>
    by_cases hv : v < TRIGGER_THRESHOLD / 2
    · have hstep := triggerStep_low true v hv
      have hrest : runTrigger false vs = (false, 0) := by
        apply runTrigger_false_low
        intro x hx
        have := nonincb_head_ge v vs hmono x hx
        simp only [TRIGGER_THRESHOLD] at *
        omega
      simp [runTrigger, hstep, hrest]
    · have hstep := triggerStep_true_mid v hv
      have hfall' : ∃ u, vs.getLast? = some u ∧ u < TRIGGER_THRESHOLD / 2 := by
        rcases hfall with ⟨u, hu, hlt⟩
        cases vs with
        | nil =>
          simp only [List.getLast?_singleton, Option.some.injEq] at hu
          subst hu
          exact absurd hlt hv
        | cons w ws =>
          rw [List.getLast?_cons_cons] at hu
          exact ⟨u, hu, hlt⟩
      simp [runTrigger, hstep, ih (nonincb_tail v vs hmono) hfall']

/-- C2: feeding a monotonically increasing-then-decreasing sample sequence
that crosses the upper threshold and then drops below half-threshold
through the trigger debouncer, starting not-pressed, emits exactly one
button-down event and ends not-pressed; a sample above the threshold while
not pressed sets the flag and emits the trigger's reserved index (6 left,
7 right); a sample below half the threshold clears the flag and emits
nothing, whatever its prior value. -/
theorem trigger_debounce_single_emission (xs ys : List Int) (s : GamepadState)
    (v w : Int) (p : Bool)
    (hup : nondecb xs = true) (hdown : nonincb ys = true)
    (hcross : ∃ x ∈ xs, TRIGGER_THRESHOLD < x)
    (hfall : ∃ u, ys.getLast? = some u ∧ u < TRIGGER_THRESHOLD / 2)
    (hlt : s.lt_pressed = false) (hrt : s.rt_pressed = false)
    (hv : TRIGGER_THRESHOLD < v) (hw : w < TRIGGER_THRESHOLD / 2) :
    runTrigger false (xs ++ ys) = (false, 1) ∧
    handleEvent s (.controllerAxisMotion .TriggerLeft v) =
      ({ s with lt_pressed := true }, [.gamepad_button 6]) ∧
    handleEvent s (.controllerAxisMotion .TriggerRight v) =
      ({ s with rt_pressed := true }, [.gamepad_button 7]) ∧
    triggerStep p w = (false, false) := by
  refine ⟨?_, ?_, ?_, triggerStep_low p w hw⟩
  · rw [runTrigger_append, runTrigger_up_phase xs hup hcross]
    simp [runTrigger_down_phase ys hdown hfall]
  · simp [handleEvent, hlt, triggerStep_high v hv]
  · simp [handleEvent, hrt, triggerStep_high v hv]

/-- Witness for C2 at a concrete increasing-then-decreasing sample
sequence. -/
theorem trigger_debounce_single_emission_witness :
    nondecb [0, 5000, 9000, 9000] = true ∧ nonincb [9000, 5000, 3000] = true ∧
    runTrigger false ([0, 5000, 9000, 9000] ++ [9000, 5000, 3000]) = (false, 1) ∧
    handleEvent initState (.controllerAxisMotion .TriggerLeft 8001) =
      ({ initState with lt_pressed := true }, [.gamepad_button 6]) ∧
    handleEvent initState (.controllerAxisMotion .TriggerRight 8001) =
      ({ initState with rt_pressed := true }, [.gamepad_button 7]) ∧
    triggerStep true 0 = (false, false) := by
  have h := trigger_debounce_single_emission [0, 5000, 9000, 9000] [9000, 5000, 3000]
    initState 8001 0 true (by decide) (by decide)
    ⟨9000, by decide, by decide⟩ ⟨3000, by decide, by decide⟩
    rfl rfl (by decide) (by decide)
  exact ⟨by decide, by decide, h.1, h.2.1, h.2.2.1, h.2.2.2⟩

/-! ## Device registry lemmas -/

theorem findInstanceIdx_lt_length (which : Nat) (l : List Controller) (idx : Nat)
    (h : findInstanceIdx which l = some idx) : idx < l.length := by
  induction l generalizing idx with
  | nil => cases h
  | cons c cs ih =>
    simp only [findInstanceIdx] at h
    split at h
    · cases h
      simp
    · rcases Option.map_eq_some'.mp h with ⟨j, hj, rfl⟩
      have := ih j hj
      simp only [List.length_cons]
      omega

theorem findInstanceIdx_eq_none (which : Nat) (l : List Controller)
    (h : which ∉ l.map Controller.instance_id) : findInstanceIdx which l = none := by
  induction l with
  | nil => rfl
  | cons c cs ih =>
    simp only [List.map_cons, List.mem_cons] at h
    push_neg at h
    simp only [findInstanceIdx]
    rw [if_neg (fun hc => h.1 hc.symm), ih h.2]
    rfl

theorem findInstanceIdx_append_self (l : List Controller) (c : Controller)
    (h : c.instance_id ∉ l.map Controller.instance_id) :
    findInstanceIdx c.instance_id (l ++ [c]) = some l.length := by
  induction l with
  | nil => simp [findInstanceIdx]
  | cons a t ih =>
    simp only [List.map_cons, List.mem_cons] at h
    push_neg at h
    simp only [List.cons_append, findInstanceIdx]
    have hra : t.append [c] = t ++ [c] := rfl
    rw [if_neg (fun hc => h.1 hc.symm), hra, ih h.2]
    rfl

theorem getElem?_append_self {α : Type} (l : List α) (x : α) :
    (l ++ [x])[l.length]? = some x := by
  induction l with
  | nil => rfl
  | cons a t ih => simp [ih]

theorem eraseIdx_append_self {α : Type} (l : List α) (x : α) :
    (l ++ [x]).eraseIdx l.length = l := by
  induction l with
  | nil => rfl
  | cons a t ih => simpa [List.eraseIdx] using ih

theorem eraseIdx_length_pair {α β : Type} (i : Nat) (l1 : List α) (l2 : List β)
    (h : l1.length = l2.length) : (l1.eraseIdx i).length = (l2.eraseIdx i).length := by
  rcases Nat.lt_or_ge i l1.length with hlt | hge
  · rw [List.length_eraseIdx_of_lt hlt, List.length_eraseIdx_of_lt (h ▸ hlt), h]
  · rw [List.eraseIdx_of_length_le hge, List.eraseIdx_of_length_le (h ▸ hge), h]

/-- Dispatching any single SDL event preserves equality of the controller
and haptic-device list lengths. -/
theorem handleEvent_preserves_len (s : GamepadState) (e : SdlEvent)
    (h : s.controllers.length = s.haptic_devices.length) :
    (handleEvent s e).1.controllers.length = (handleEvent s e).1.haptic_devices.length := by
  cases e with
  | controllerDeviceAdded res =>
    cases res with
    | none => exact h
    | some ch =>
      rcases ch with ⟨c, hh⟩
      simp [handleEvent, h]
  | controllerDeviceRemoved which =>
    simp only [handleEvent]
    split
    · exact h
    · split
      · exact h
      · exact eraseIdx_length_pair _ _ _ h
  | controllerButtonDown b =>
    simp only [handleEvent]
    split <;> exact h
  | controllerAxisMotion axis v =>
    cases axis <;> simp [handleEvent, h]
  | otherEvent => exact h

theorem runEvents_preserves_len (evs : List SdlEvent) (s : GamepadState)
    (h : s.controllers.length = s.haptic_devices.length) :
    (runEvents s evs).1.controllers.length = (runEvents s evs).1.haptic_devices.length := by
  induction evs generalizing s with
  | nil => exact h
  | cons e es ih => exact ih _ (handleEvent_preserves_len s e h)

/-- C3: after any sequence of SDL events processed from the initial state
(including device-added and device-removed registry operations), the
controller list and the haptic-handle list have the same length: every
successful open appends one entry to each, every removal erases the same
index from each. -/
theorem registry_lengths_aligned (evs : List SdlEvent) :
    (runEvents initState evs).1.controllers.length =
      (runEvents initState evs).1.haptic_devices.length :=
  runEvents_preserves_len evs initState rfl

/-- C8: a device-removed event whose instance identifier matches no
registry entry leaves the whole state (controller list, haptic list, both
trigger flags) unchanged and emits no event. -/
theorem remove_unknown_noop (s : GamepadState) (which : Nat)
    (h : which ∉ s.controllers.map Controller.instance_id) :
    handleEvent s (.controllerDeviceRemoved which) = (s, []) := by
  simp [handleEvent, findInstanceIdx_eq_none which s.controllers h]

/-- Witness for C8: removing unknown instance id 99 from a one-entry
registry is a no-op. -/
theorem remove_unknown_noop_witness :
    (99 : Nat) ∉ (GamepadState.mk [⟨5, "pad"⟩] [none] false true).controllers.map
       Controller.instance_id ∧
    handleEvent (GamepadState.mk [⟨5, "pad"⟩] [none] false true)
        (.controllerDeviceRemoved 99) =
      (GamepadState.mk [⟨5, "pad"⟩] [none] false true, []) :=
  ⟨by decide, remove_unknown_noop (GamepadState.mk [⟨5, "pad"⟩] [none] false true) 99
    (by decide)⟩

/-- C5: opening a device emits exactly one connected status event with the
device's name and appends one entry to each registry list; removing that
same instance then emits exactly one disconnected status event with the
same name, shrinks both lists by one at that same (last) index — restoring
the original lists — and resets both trigger debounce flags. -/
theorem hotplug_roundtrip (s : GamepadState) (c : Controller) (h : Option HapticHandle)
    (hlen : s.controllers.length = s.haptic_devices.length)
    (hfresh : c.instance_id ∉ s.controllers.map Controller.instance_id) :
    (handleEvent s (.controllerDeviceAdded (some (c, h)))).2 =
      [.gamepad_status true c.name] ∧
    (handleEvent s (.controllerDeviceAdded (some (c, h)))).1.controllers =
      s.controllers ++ [c] ∧
    (handleEvent s (.controllerDeviceAdded (some (c, h)))).1.haptic_devices =
      s.haptic_devices ++ [h] ∧
    handleEvent (handleEvent s (.controllerDeviceAdded (some (c, h)))).1
        (.controllerDeviceRemoved c.instance_id) =
      (GamepadState.mk s.controllers s.haptic_devices false false,
       [.gamepad_status false c.name]) := by
  refine ⟨rfl, rfl, rfl, ?_⟩
  show handleEvent
      (GamepadState.mk (s.controllers ++ [c]) (s.haptic_devices ++ [h])
        s.lt_pressed s.rt_pressed) (.controllerDeviceRemoved c.instance_id) = _
  simp only [handleEvent, findInstanceIdx_append_self s.controllers c hfresh,
    getElem?_append_self]
  rw [eraseIdx_append_self, hlen, eraseIdx_append_self]

/-- Witness for C5: round trip of controller 7 named "q" over a registry
already holding controller 5. -/
theorem hotplug_roundtrip_witness :
    (handleEvent (GamepadState.mk [⟨5, "p"⟩] [some ()] true true)
        (.controllerDeviceAdded (some (⟨7, "q"⟩, none)))).2 =
      [.gamepad_status true "q"] ∧
    (handleEvent (GamepadState.mk [⟨5, "p"⟩] [some ()] true true)
        (.controllerDeviceAdded (some (⟨7, "q"⟩, none)))).1.controllers =
      [⟨5, "p"⟩] ++ [⟨7, "q"⟩] ∧
    (handleEvent (GamepadState.mk [⟨5, "p"⟩] [some ()] true true)
        (.controllerDeviceAdded (some (⟨7, "q"⟩, none)))).1.haptic_devices =
      [some ()] ++ [none] ∧
    handleEvent (handleEvent (GamepadState.mk [⟨5, "p"⟩] [some ()] true true)
        (.controllerDeviceAdded (some (⟨7, "q"⟩, none)))).1
        (.controllerDeviceRemoved 7) =
      (GamepadState.mk [⟨5, "p"⟩] [some ()] false false,
       [.gamepad_status false "q"]) :=
  hotplug_roundtrip (GamepadState.mk [⟨5, "p"⟩] [some ()] true true) ⟨7, "q"⟩ none
    rfl (by decide)

/-! ## Button mapper lemmas -/

theorem button_to_w3c_le_or (b : Button) :
    button_to_w3c b ≤ 16 ∨ button_to_w3c b = 255 := by
  cases b <;> simp [button_to_w3c]

/-- C1: `button_to_w3c` realises the fixed W3C index table on every named
vendor button; every identifier outside the table maps to the sentinel
255, and the poll loop emits no button event for a sentinel-mapped
button. -/
theorem button_to_w3c_table_spec (b u : Button) (s : GamepadState)
    (hu : u ∉ knownButtons) (hb : button_to_w3c b = 255) :
    (button_to_w3c .A = 0 ∧ button_to_w3c .B = 1 ∧ button_to_w3c .X = 2 ∧
     button_to_w3c .Y = 3 ∧ button_to_w3c .LeftShoulder = 4 ∧
     button_to_w3c .RightShoulder = 5 ∧ button_to_w3c .Back = 8 ∧
     button_to_w3c .Start = 9 ∧ button_to_w3c .LeftStick = 10 ∧
     button_to_w3c .RightStick = 11 ∧ button_to_w3c .DPadUp = 12 ∧
     button_to_w3c .DPadDown = 13 ∧ button_to_w3c .DPadLeft = 14 ∧
     button_to_w3c .DPadRight = 15 ∧ button_to_w3c .Guide = 16) ∧
    button_to_w3c u = 255 ∧
    handleEvent s (.controllerButtonDown b) = (s, []) := by
  refine ⟨by decide, ?_, ?_⟩
  · cases u
    case Misc1 => rfl
    case Paddle1 => rfl
    case Paddle2 => rfl
    case Paddle3 => rfl
    case Paddle4 => rfl
    case Touchpad => rfl
    all_goals exact absurd (by decide) hu
  · simp [handleEvent, hb]

/-- Witness for C1 at the unmapped buttons `Misc1` and `Touchpad`. -/
theorem button_to_w3c_table_spec_witness :
    Button.Misc1 ∉ knownButtons ∧ button_to_w3c .Touchpad = 255 ∧
    button_to_w3c .Misc1 = 255 ∧
    handleEvent initState (.controllerButtonDown .Touchpad) = (initState, []) := by
  have h := button_to_w3c_table_spec .Touchpad .Misc1 initState (by decide) (by decide)
  exact ⟨by decide, by decide, h.2.1, h.2.2⟩

/-- Any button event produced by dispatching a single SDL event carries an
index at most 16. -/
theorem handleEvent_button_le (s : GamepadState) (e : SdlEvent) (n : Nat)
    (h : OutEvent.gamepad_button n ∈ (handleEvent s e).2) : n ≤ 16 := by
  cases e with
  | controllerDeviceAdded res =>
    cases res with
    | none => cases h
    | some ch =>
      rcases ch with ⟨c, hh⟩
      simp [handleEvent] at h
  | controllerDeviceRemoved which =>
    simp only [handleEvent] at h
    split at h
    · cases h
    · split at h
      · cases h
      · simp at h
  | controllerButtonDown b =>
    simp only [handleEvent] at h
    split at h
    · rcases List.mem_singleton.mp h
      rcases button_to_w3c_le_or b with hle | h255
      · exact hle
      · simp_all
    · cases h
  | controllerAxisMotion axis v =>
    cases axis <;> simp only [handleEvent] at h
    · split at h
      · rcases List.mem_singleton.mp h
        omega
      · cases h
    · split at h
      · rcases List.mem_singleton.mp h
        omega
      · cases h
    · cases h
  | otherEvent => cases h

/-- C9: over any sequence of hardware events, from any state, every
emitted button event carries an index inside the table's reserved range
0–16 (digital buttons 0–5 and 8–16, triggers 6–7); no out-of-table index
is ever forwarded. -/
theorem button_events_in_range (s : GamepadState) (evs : List SdlEvent) (n : Nat)
    (h : OutEvent.gamepad_button n ∈ (runEvents s evs).2) : n ≤ 16 := by
  induction evs generalizing s with
  | nil => cases h
  | cons e es ih =>
    simp only [runEvents] at h
    rcases List.mem_append.mp h with h1 | h2
    · exact handleEvent_button_le s e n h1
    · exact ih _ h2

/-- Witness for C9 on a concrete event sequence containing a button press,
a trigger pull and an unmapped button. -/
theorem button_events_in_range_witness :
    OutEvent.gamepad_button 6 ∈
      (runEvents initState [.controllerButtonDown .Misc1,
        .controllerAxisMotion .TriggerLeft 9000, .controllerButtonDown .A]).2 ∧
    6 ≤ 16 :=
  ⟨by decide, button_events_in_range initState [.controllerButtonDown .Misc1,
      .controllerAxisMotion .TriggerLeft 9000, .controllerButtonDown .A] 6 (by decide)⟩

/-! ## Haptic dispatcher lemmas -/

theorem drainOne_replicate (hd : List (Option HapticHandle)) (req : HapticRequest) :
    drainOne hd req = List.replicate (hd.countP (fun o => o.isSome)) (rumbleOf req) := by
  induction hd with
  | nil => rfl
  | cons h t ih =>
    cases h with
    | none => simpa [drainOne, List.countP_cons] using ih
    | some u =>
      simp only [drainOne, List.filterMap_cons, Option.map_some', List.countP_cons,
        Option.isSome_some, if_pos, List.replicate_succ] at ih ⊢
      simp [ih, List.replicate_succ]

/-- C4: draining a queue holding one request over a registry with N
haptic-capable entries issues exactly N replay calls — one per entry
holding a handle, all with identical parameters derived from that one
request's strength and duration; with N = 0 the request is consumed with
no calls. -/
theorem haptic_fanout_replicate (hd : List (Option HapticHandle)) (req : HapticRequest) :
    drainHaptics hd [req] = List.replicate (hd.countP (fun o => o.isSome)) (rumbleOf req) := by
  simp [drainHaptics, drainOne_replicate]

/-- C6: every replay call the dispatcher issues is parameterized from the
request exactly as received, and feeding strength 3/2 produces a call that
differs from the call a [0,1]-clamped strength would produce — the
dispatcher applies no clamping. -/
theorem dispatcher_no_clamp (hd : List (Option HapticHandle)) (req : HapticRequest)
    (c : RumbleCall) (hc : c ∈ drainOne hd req) :
    c = rumbleOf req ∧
    rumbleOf ⟨3 / 2, 200⟩ ≠ rumbleOf ⟨clampQ 0 1 (3 / 2), 200⟩ := by
  constructor
  · rw [drainOne_replicate] at hc
    exact List.eq_of_mem_replicate hc
  · intro heq
    have hlow := congrArg RumbleCall.low heq
    have h1 : (rumbleOf ⟨3 / 2, 200⟩).low = 29490 := by
      show satU16 ((3 / 2 : ℚ) * (3 / 10) * 65535) = 29490
      norm_num [satU16]
      rfl
    have hcl : clampQ 0 1 (3 / 2 : ℚ) = 1 := by
      norm_num [clampQ, min_def, max_def]
    have h2 : (rumbleOf ⟨clampQ 0 1 (3 / 2), 200⟩).low = 19660 := by
      show satU16 (clampQ 0 1 (3 / 2 : ℚ) * (3 / 10) * 65535) = 19660
      rw [hcl]
      norm_num [satU16]
      rfl
    rw [h1, h2] at hlow
    exact absurd hlow (by decide)

/-- Witness for C6: with one haptic device and strength 3/2, the issued
call forwards the unclamped strength. -/
theorem dispatcher_no_clamp_witness :
    rumbleOf ⟨3 / 2, 200⟩ ∈ drainOne [some ()] ⟨3 / 2, 200⟩ ∧
    rumbleOf ⟨3 / 2, 200⟩ = rumbleOf ⟨3 / 2, 200⟩ ∧
    rumbleOf ⟨3 / 2, 200⟩ ≠ rumbleOf ⟨clampQ 0 1 (3 / 2), 200⟩ := by
  have hm : rumbleOf ⟨3 / 2, 200⟩ ∈ drainOne [some ()] ⟨3 / 2, 200⟩ := by
    simp [drainOne]
  have h := dispatcher_no_clamp [some ()] ⟨3 / 2, 200⟩ (rumbleOf ⟨3 / 2, 200⟩) hm
  exact ⟨hm, h.1, h.2⟩

/-- C7: the `trigger_haptic` command handler clamps every strength
argument into [0, 1] before enqueueing it and forwards the duration
unchanged: the enqueued request is exactly the clamped one. -/
theorem trigger_haptic_clamps (str : ℚ) (d : Nat) :
    0 ≤ (trigger_haptic str d).strength ∧ (trigger_haptic str d).strength ≤ 1 ∧
    (trigger_haptic str d).duration_ms = d ∧
    trigger_haptic str d = ⟨clampQ 0 1 str, d⟩ := by
  refine ⟨le_max_left 0 _, ?_, rfl, rfl⟩
  show max 0 (min 1 str) ≤ 1
  exact max_le (by norm_num) (min_le_left 1 str)

/-- C10: every replay call issued while processing one request carries
`low = (strength * 0.3 * 65535) as u16`, `high = (strength * 65535) as
u16` (the cast saturating at 0 and 65535) and the request's duration
unchanged, and any two calls of the same request are identical. -/
theorem rumble_amplitude_formula (hd : List (Option HapticHandle)) (req : HapticRequest)
    (c c' : RumbleCall) (hc : c ∈ drainHaptics hd [req])
    (hc' : c' ∈ drainHaptics hd [req]) :
    c.low = satU16 (req.strength * (3 / 10) * 65535) ∧
    c.high = satU16 (req.strength * 65535) ∧
    c.duration_ms = req.duration_ms ∧ c' = c := by
  have hone : drainHaptics hd [req] = drainOne hd req := by simp [drainHaptics]
  rw [hone, drainOne_replicate] at hc hc'
  have h1 := List.eq_of_mem_replicate hc
  have h2 := List.eq_of_mem_replicate hc'
  exact ⟨by rw [h1]; rfl, by rw [h1]; rfl, by rw [h1]; rfl, by rw [h1, h2]⟩

/-- Witness for C10: strength 1/2 with two registry entries, one
haptic-capable, issues the call (9830, 32767, 200ms). -/
theorem rumble_amplitude_formula_witness :
    (⟨9830, 32767, 200⟩ : RumbleCall) ∈ drainHaptics [some (), none] [⟨1 / 2, 200⟩] ∧
    ((⟨9830, 32767, 200⟩ : RumbleCall).low = satU16 ((1 / 2 : ℚ) * (3 / 10) * 65535) ∧
     (⟨9830, 32767, 200⟩ : RumbleCall).high = satU16 ((1 / 2 : ℚ) * 65535) ∧
     (⟨9830, 32767, 200⟩ : RumbleCall).duration_ms = 200 ∧
     (⟨9830, 32767, 200⟩ : RumbleCall) = ⟨9830, 32767, 200⟩) := by
  have e1 : satU16 ((1 / 2 : ℚ) * (3 / 10) * 65535) = 9830 := by
    norm_num [satU16]
    rfl
  have e2 : satU16 ((1 / 2 : ℚ) * 65535) = 32767 := by
    norm_num [satU16]
    rfl
  have hm : (⟨9830, 32767, 200⟩ : RumbleCall) ∈
      drainHaptics [some (), none] [⟨1 / 2, 200⟩] := by
    have hd1 : drainHaptics [some (), none] [(⟨1 / 2, 200⟩ : HapticRequest)] =
        [rumbleOf ⟨1 / 2, 200⟩] := by
      simp [drainHaptics, drainOne]
    have hr : rumbleOf (⟨1 / 2, 200⟩ : HapticRequest) = ⟨9830, 32767, 200⟩ := by
      show (⟨satU16 ((1 / 2 : ℚ) * (3 / 10) * 65535),
        satU16 ((1 / 2 : ℚ) * 65535), 200⟩ : RumbleCall) = ⟨9830, 32767, 200⟩
      rw [e1, e2]
    rw [hd1, hr]
    exact List.mem_singleton.mpr rfl
  exact ⟨hm, rumble_amplitude_formula [some (), none] ⟨1 / 2, 200⟩ _ _ hm hm⟩

end DeckPilot
